import Mathlib

/-!
Verification of the metarelay event-relay daemon against its specification.

The Python sources are shallowly embedded as executable Lean definitions:

* `src/metarelay/handlers/registry.py` — filter parsing (`_FILTER_PATTERN`),
  `_evaluate_filters`, `_resolve_field`, `HandlerRegistry.match`;
* `src/metarelay/adapters/agent_dispatcher.py` — `resolve_template`,
  `AgentDispatcher.dispatch`;
* `src/metarelay/adapters/local_store.py` — `SqliteEventStore`
  (`get_cursor`, `set_cursor`, `log_event`, `has_event`);
* `src/metarelay/daemon.py` — `Daemon._handle_event`, `Daemon._catch_up`
  and the reconnect-backoff bookkeeping of `Daemon.run`.

Machine integers are modelled as `Int`, Python `float` backoff values as `ℚ`
(all values reached are exact in binary floating point), raising code as
`Except`, and the filesystem / subprocess side effects as explicit oracles.
-/

namespace Metarelay

/-- JSON-equivalent values stored in an event payload (Python `dict[str, Any]`
entries).  A payload mapping is an association list; `null` models Python
`None` stored inside a mapping. -/
inductive JsonVal where
  | null : JsonVal
  | bool (b : Bool) : JsonVal
  | num (n : Int) : JsonVal
  | str (s : String) : JsonVal
  | arr (xs : List JsonVal) : JsonVal
  | obj (fields : List (String × JsonVal)) : JsonVal

/-- The single-quote character, written via its code point. -/
def squote : Char := Char.ofNat 39

/-- The single-quote character as a string. -/
def sq : String := String.mk [squote]

/-- Left-brace and right-brace strings for Python dict rendering. -/
def lbraceStr : String := "\x7b"

/-- Right brace as a string. -/
def rbraceStr : String := "\x7d"

mutual

/-- Python `repr` of a JSON-equivalent value (used by `str` on containers).
Strings are rendered in single quotes; Python escaping of exotic characters
inside `repr` is not modelled (no claim evaluates it). -/
def pyRepr : JsonVal → String
  | .null => "None"
  | .bool true => "True"
  | .bool false => "False"
  | .num n => toString n
  | .str s => sq ++ s ++ sq
  | .arr xs => "[" ++ pyReprList xs ++ "]"
  | .obj fs => lbraceStr ++ pyReprFields fs ++ rbraceStr

/-- Comma-joined `repr` of list elements. -/
def pyReprList : List JsonVal → String
  | [] => ""
  | [v] => pyRepr v
  | v :: vs => pyRepr v ++ ", " ++ pyReprList vs

/-- Comma-joined `repr` of dict entries. -/
def pyReprFields : List (String × JsonVal) → String
  | [] => ""
  | [(k, v)] => sq ++ k ++ sq ++ ": " ++ pyRepr v
  | (k, v) :: fs => sq ++ k ++ sq ++ ": " ++ pyRepr v ++ ", " ++ pyReprFields fs

end

/-- Python `str()` of a JSON-equivalent value: identical to `repr` except that
a top-level string is returned verbatim. -/
def pyStr : JsonVal → String
  | .str s => s
  | v => pyRepr v

/-- Python `str()` applied to the result of a dotted-path resolution, where
`none` is Python `None` (so `str` gives `"None"`). -/
def pyStrOpt : Option JsonVal → String
  | none => "None"
  | some v => pyStr v

/-- An upstream webhook event (`metarelay.core.models.Event`).  `created_at`
is a `datetime` in the source and is modelled as an opaque string. -/
structure Event where
  id : Int
  repo : String
  event_type : String
  action : String
  ref : Option String := none
  actor : Option String := none
  summary : Option String := none
  payload : List (String × JsonVal) := []
  delivery_id : Option String := none
  created_at : String := ""

/-- Lift an optional string field of the pydantic model into the value a
`model_dump()` dictionary lookup observes: an absent value is Python `None`,
which this embedding represents as `none`. -/
def optStr : Option String → Option JsonVal
  | none => none
  | some s => some (.str s)

/-- The value `event.model_dump().get(key)` for a top-level attribute.
A key that is not a model field yields `none` (Python `None`), and a field
whose value is `None` also yields `none` — the two are indistinguishable to
`dict.get`. -/
def eventAttr (e : Event) (key : String) : Option JsonVal :=
  if key = "id" then some (.num e.id)
  else if key = "repo" then some (.str e.repo)
  else if key = "event_type" then some (.str e.event_type)
  else if key = "action" then some (.str e.action)
  else if key = "ref" then optStr e.ref
  else if key = "actor" then optStr e.actor
  else if key = "summary" then optStr e.summary
  else if key = "payload" then some (.obj e.payload)
  else if key = "delivery_id" then optStr e.delivery_id
  else if key = "created_at" then some (.str e.created_at)
  else none

/-- `dict.get` on a payload mapping: a missing key and a stored JSON `null`
both come back as Python `None` (`none` here). -/
def pyGet (fs : List (String × JsonVal)) (k : String) : Option JsonVal :=
  match List.lookup k fs with
  | some .null => none
  | v => v

/-- The loop body of `_resolve_field` / `resolve_template` for a
`payload`-rooted path: repeatedly `value = value.get(part)` while `value`
is a mapping; any non-mapping intermediate (including `None`) yields `None`. -/
def walkPayload : Option JsonVal → List String → Option JsonVal
  | v, [] => v
  | some (.obj fs), p :: ps => walkPayload (pyGet fs p) ps
  | _, _ :: _ => none

/-- Core of `registry._resolve_field` after `field_path.split(".")`:
a `payload`-headed path walks the payload mapping; any other head is looked
up in `event.model_dump()` and the remaining segments are ignored by the
source (`return event_dict.get(parts[0])`). -/
def resolveFieldParts (parts : List String) (e : Event) : Option JsonVal :=
  match parts with
  | [] => none
  | p :: rest =>
    if p = "payload" then walkPayload (some (.obj e.payload)) rest
    else eventAttr e p

/-- Helper for `pySplitDot`: split the remaining characters at every dot,
with `acc` holding the current segment reversed. -/
def splitDotAux : List Char → List Char → List String
  | [], acc => [String.mk acc.reverse]
  | c :: rest, acc =>
    if c = '.' then String.mk acc.reverse :: splitDotAux rest []
    else splitDotAux rest (c :: acc)

/-- Python `s.split(".")`: segments between dots, keeping empty segments
(`"".split(".") == [""]`, `".a".split(".") == ["", "a"]`). -/
def pySplitDot (s : String) : List String :=
  splitDotAux s.toList []

/-- `registry._resolve_field(field_path, event)` (the source starts with
`parts = field_path.split(".")`). -/
def resolve_field (field_path : String) (e : Event) : Option JsonVal :=
  resolveFieldParts (pySplitDot field_path) e

/-! ### The filter grammar

`_FILTER_PATTERN` in `registry.py` is the anchored regular expression

    (word path) (ws)* (== or !=) (ws)* (quote) (lazy body) (quote, at end)

where a word path is word characters in dot-separated groups.  The parser
below implements exactly the strings this pattern accepts after the
`filter_expr.strip()` performed by `_evaluate_filters`. -/

/-- A regex word character.  Python matches Unicode word characters; this
embedding restricts to the ASCII alphanumerics and underscore the repo's
filters use. -/
def isWordChar (c : Char) : Bool := c.isAlphanum || c == '_'

/-- A regex whitespace character (Python ASCII whitespace class). -/
def isPySpace (c : Char) : Bool :=
  c == ' ' || c == '\t' || c == '\n' || c == '\x0d' || c == '\x0b' || c == '\x0c'

/-- A quote accepted by the value part of the pattern: single or double. -/
def isQuote (c : Char) : Bool := c == squote || c == '"'

/-- Python `str.strip()`: remove leading and trailing whitespace. -/
def pyStrip (cs : List Char) : List Char :=
  ((cs.dropWhile isPySpace).reverse.dropWhile isPySpace).reverse

/-- Whether a character list starts with a word character (used both as
the validity test for a consumed path — the group must not start with a
dot — and as the lookahead deciding whether a dot can be consumed). -/
def headIsWord : List Char → Bool
  | [] => false
  | c :: _ => isWordChar c

/-- Consume the maximal prefix matching the dotted word-path grammar
(word characters, with each dot followed by at least one word character);
returns the consumed prefix and the remainder.  A character is consumed
when it is a word character, or a dot with a word character right after —
matching the backtracking behaviour of the greedy groups in
`_FILTER_PATTERN` and `_TEMPLATE_PATTERN`. -/
def pathTake : List Char → List Char × List Char
  | [] => ([], [])
  | c :: cs =>
    if isWordChar c || (c == '.' && headIsWord cs) then
      (c :: (pathTake cs).1, (pathTake cs).2)
    else ([], c :: cs)

/-- The two comparison operators of the filter grammar. -/
inductive FilterOp where
  | eq : FilterOp
  | ne : FilterOp
deriving DecidableEq

/-- Parse the quoted value part `(quote)(lazy body)(quote)$` of the filter
pattern.  The lazy body must be nonempty, must not contain a newline
(regex `.` does not match one), and the closing quote must be the final
character. -/
def parseQuoted (op : FilterOp) (r3 : List Char) : Option (FilterOp × String) :=
  let r4 := r3.dropWhile isPySpace
  match r4 with
  | q :: rest =>
    if isQuote q then
      match rest.reverse with
      | endq :: revBody =>
        if isQuote endq && !revBody.isEmpty && !(revBody.contains '\n') then
          some (op, String.mk revBody.reverse)
        else none
      | [] => none
    else none
  | [] => none

/-- Parse the `(ws)* operator (ws)* quoted-value` suffix of a filter. -/
def parseOpValue (r1 : List Char) : Option (FilterOp × String) :=
  match r1.dropWhile isPySpace with
  | '=' :: '=' :: r3 => parseQuoted .eq r3
  | '!' :: '=' :: r3 => parseQuoted .ne r3
  | _ => none

/-- `_FILTER_PATTERN.match(filter_expr.strip())`: strip the expression, then
match the anchored pattern, yielding the groups `(field_path, op, value)`. -/
def parseFilterChars (cs0 : List Char) : Option (String × FilterOp × String) :=
  let cs := pyStrip cs0
  let pr := pathTake cs
  if headIsWord pr.1 then
    match parseOpValue pr.2 with
    | some (op, v) => some (String.mk pr.1, op, v)
    | none => none
  else none

/-- Filter parsing on strings. -/
def parseFilter (s : String) : Option (String × FilterOp × String) :=
  parseFilterChars s.toList

/-- `registry._evaluate_filters(filters, event)`: every expression must
parse and its comparison against the stringified resolved value must hold;
an unparseable expression makes the whole list evaluate false.  The source
logs a warning instead of raising; the function is total. -/
def evaluateFilters (filters : List String) (e : Event) : Bool :=
  match filters with
  | [] => true
  | f :: fs =>
    match parseFilter f with
    | none => false
    | some (field_path, op, expected) =>
      let actual := pyStrOpt (resolve_field field_path e)
      match op with
      | .eq => if actual ≠ expected then false else evaluateFilters fs e
      | .ne => if actual = expected then false else evaluateFilters fs e

/-- A handler configuration (`metarelay.core.models.HandlerConfig`). -/
structure HandlerConfig where
  name : String
  event_type : String
  action : String
  command : String
  filters : List String := []
  timeout : Int := 300
  enabled : Bool := true

/-- `HandlerRegistry.match(event)` over the registered handler list: skip
disabled handlers and those whose `event_type`, `action`, or filter list do
not match; keep the rest in registration order. -/
def matchEvent (handlers : List HandlerConfig) (e : Event) : List HandlerConfig :=
  match handlers with
  | [] => []
  | h :: hs =>
    if !h.enabled then matchEvent hs e
    else if h.event_type ≠ e.event_type then matchEvent hs e
    else if h.action ≠ e.action then matchEvent hs e
    else if !evaluateFilters h.filters e then matchEvent hs e
    else h :: matchEvent hs e

/-! ### Template substitution (`agent_dispatcher.resolve_template`)

`_TEMPLATE_PATTERN` matches a double-brace pair enclosing the same dotted
word-path grammar as the filters.  `re.sub` scans left to right: at a
position with no match it emits one character and retries at the next
position; at a match it emits the replacement and resumes after it. -/

/-- The left-brace character. -/
def lbrace : Char := Char.ofNat 123

/-- The right-brace character. -/
def rbrace : Char := Char.ofNat 125

/-- The inner `replacer` of `resolve_template`, applied to the dot-split
placeholder path: a `payload`-rooted path walks the payload; any other head
is looked up in `event.model_dump()` and the remaining segments are ignored.
A resolved Python `None` becomes the empty string, anything else is
stringified. -/
def replacer (parts : List String) (e : Event) : String :=
  match parts with
  | [] => ""
  | p :: rest =>
    if p = "payload" then
      match walkPayload (some (.obj e.payload)) rest with
      | none => ""
      | some v => pyStr v
    else
      match eventAttr e p with
      | none => ""
      | some v => pyStr v

/-- The `re.sub` scan of `_TEMPLATE_PATTERN` over the template characters.
Fuel bounds the recursion; every step consumes at least one input character,
so `length + 1` fuel always suffices and the fuel-exhausted branch is
unreachable from `resolve_template`. -/
def subTemplateFuel : Nat → Event → List Char → List Char
  | 0, _, cs => cs
  | _ + 1, _, [] => []
  | n + 1, e, c :: cs =>
    if c = lbrace then
      match cs with
      | c2 :: rest =>
        if c2 = lbrace then
          let pr := pathTake rest
          if headIsWord pr.1 then
            match pr.2 with
            | r1 :: r2 :: r3 =>
              if r1 = rbrace && r2 = rbrace then
                (replacer (pySplitDot (String.mk pr.1)) e).toList
                  ++ subTemplateFuel n e r3
              else c :: subTemplateFuel n e cs
            | _ => c :: subTemplateFuel n e cs
          else c :: subTemplateFuel n e cs
        else c :: subTemplateFuel n e cs
      | [] => [c]
    else c :: subTemplateFuel n e cs

/-- `agent_dispatcher.resolve_template(template, event)`. -/
def resolve_template (template : String) (e : Event) : String :=
  String.mk (subTemplateFuel (template.toList.length + 1) e template.toList)

/-! ### Agent dispatcher (`AgentDispatcher.dispatch`) -/

/-- Outcome status of one handler dispatch
(`metarelay.core.models.HandlerResultStatus`). -/
inductive HandlerResultStatus where
  | success : HandlerResultStatus
  | failure : HandlerResultStatus
  | skipped : HandlerResultStatus
  | timeout : HandlerResultStatus
  | error : HandlerResultStatus
deriving DecidableEq

/-- The `.value` string of a status enum member. -/
def HandlerResultStatus.value : HandlerResultStatus → String
  | .success => "success"
  | .failure => "failure"
  | .skipped => "skipped"
  | .timeout => "timeout"
  | .error => "error"

/-- Result of dispatching a handler (`metarelay.core.models.HandlerResult`).
Durations are rationals (Python floats). -/
structure HandlerResult where
  handler_name : String
  status : HandlerResultStatus
  exit_code : Option Int := none
  output : Option String := none
  duration_seconds : Option ℚ := none

/-- What the spawned subprocess did, as observed by `subprocess.run`:
it completed with an exit code and captured output, it exceeded the
handler's timeout, or the invocation itself raised (exec or OS error). -/
inductive ProcOutcome where
  | completed (returncode : Int) (stdout stderr : String) : ProcOutcome
  | timedOut : ProcOutcome
  | raised (msg : String) : ProcOutcome

/-- Python `round(q, 2)` (modelled as round-half-away from `Mathlib.round`;
Python rounds exact halves to even, which no claim exercises). -/
def round2 (q : ℚ) : ℚ := (round (q * 100) : ℤ) / 100

/-- `AgentDispatcher.dispatch(handler, event)`.  Template resolution can
raise in Python (the repo's unit tests exercise this by patching
`resolve_template`), so its outcome is passed explicitly as `tmpl`; the
subprocess behaviour and the measured wall-clock duration are oracles.
A raising subprocess invocation becomes a `DispatchError`, modelled as
`Except.error`. -/
def dispatch (h : HandlerConfig) (tmpl : Except String String)
    (proc : ProcOutcome) (duration : ℚ) : Except String HandlerResult :=
  match tmpl with
  | .error msg =>
    .ok { handler_name := h.name, status := .error,
          output := some ("Template resolution failed: " ++ msg) }
  | .ok _command =>
    match proc with
    | .completed rc out err =>
      let status := if rc = 0 then HandlerResultStatus.success else .failure
      let output := if err ≠ "" then
          (if out ≠ "" then out ++ "\n--- stderr ---\n" ++ err else err)
        else out
      .ok { handler_name := h.name, status := status, exit_code := some rc,
            output := if output ≠ "" then some (output.take 10000) else none,
            duration_seconds := some (round2 duration) }
    | .timedOut =>
      .ok { handler_name := h.name, status := .timeout,
            duration_seconds := some (round2 duration),
            output := some ("Command timed out after " ++ toString h.timeout ++ "s") }
    | .raised msg =>
      .error ("Failed to execute handler " ++ h.name ++ ": " ++ msg)

/-! ### The SQLite event store (`adapters/local_store.py`)

The `cursor` table (primary key `repo`) is an association list; the
`event_log` table is the list of inserted rows in insertion order, with a
UNIQUE constraint on `remote_id` enforced by `log_event`.  `updated_at` /
`created_at` timestamp columns are not modelled. -/

/-- One `event_log` row. -/
structure LogRow where
  remote_id : Int
  repo : String
  event_type : String
  action : String
  summary : Option String
  handler_name : String
  handler_result : String

/-- The persistent state owned by `SqliteEventStore`. -/
structure Store where
  cursor : List (String × Int) := []
  event_log : List LogRow := []

/-- Row lookup in the `cursor` table by primary key. -/
def cursorLookup : List (String × Int) → String → Option Int
  | [], _ => none
  | (r, i) :: rest, repo => if r = repo then some i else cursorLookup rest repo

/-- The SQL upsert of `set_cursor`: update the existing row for the repo or
insert a new one. -/
def cursorUpsert : List (String × Int) → String → Int → List (String × Int)
  | [], repo, i => [(repo, i)]
  | (r, i0) :: rest, repo, i =>
    if r = repo then (r, i) :: rest else (r, i0) :: cursorUpsert rest repo i

/-- `SqliteEventStore.get_cursor(repo)`: the stored `last_event_id`, or
`none` when the cursor was never set (the source wraps the id in a
`CursorPosition` whose `repo` field is the key itself). -/
def get_cursor (st : Store) (repo : String) : Option Int :=
  cursorLookup st.cursor repo

/-- `SqliteEventStore.set_cursor(repo, last_event_id)`: unconditional
upsert — the new value replaces whatever was stored. -/
def set_cursor (st : Store) (repo : String) (last_event_id : Int) : Store :=
  { st with cursor := cursorUpsert st.cursor repo last_event_id }

/-- `SqliteEventStore.has_event(remote_id)`: is some `event_log` row keyed
by this remote id? -/
def has_event (st : Store) (remote_id : Int) : Bool :=
  st.event_log.any (fun row => decide (row.remote_id = remote_id))

/-- `SqliteEventStore.log_event(event, result)`: insert a row; when the
UNIQUE constraint on `remote_id` fires (`sqlite3.IntegrityError`) the
exception is swallowed and the store is unchanged.  The function is total:
the violation is never surfaced as a store failure. -/
def log_event (st : Store) (e : Event) (r : HandlerResult) : Store :=
  if has_event st e.id then st
  else { st with event_log := st.event_log ++
          [{ remote_id := e.id, repo := e.repo, event_type := e.event_type,
             action := e.action, summary := e.summary,
             handler_name := r.handler_name,
             handler_result := r.status.value }] }

/-! ### The daemon event-handling path (`daemon.py`)

`Daemon._handle_event` is synchronous: dedup check, event-file append,
handler matching, per-match dispatch + `log_event`, then `set_cursor`.
The per-repo event file is the filesystem side effect of
`_write_event_file`; appended `(path, event)` lines are tracked in
`DaemonState.files`, and whether the append raises (directory creation or
open/write failure) is the oracle `writeOk`.  The dispatcher is the oracle
`disp` (a `DispatchError` escaping it is not modelled here; no claim
below exercises that path).  An exception propagating out of the handling
path is `Except.error ()`. -/

/-- Daemon-visible mutable world: the event store plus the per-repo event
files (as the list of appended lines). -/
structure DaemonState where
  store : Store
  files : List (String × Event) := []

/-- `Daemon._write_event_file(event)`: skip silently when no local path is
configured for the repo; otherwise append one JSONL line — the source has
no exception handling here, so a failing append raises out of the
function. -/
def writeEventFile (repoPath : String → Option String) (writeOk : Bool)
    (ds : DaemonState) (e : Event) : Except Unit DaemonState :=
  match repoPath e.repo with
  | none => .ok ds
  | some p =>
    if writeOk then .ok { ds with files := ds.files ++ [(p, e)] }
    else .error ()

/-- `Daemon._handle_event(event)`.  Returns the new state and the list of
handlers dispatched (in dispatch order); `log_event` is called once per
dispatched handler, inside the loop, and `set_cursor` runs after the loop
whether or not any handler matched. -/
def handleEvent (repoPath : String → Option String)
    (handlers : List HandlerConfig)
    (disp : HandlerConfig → Event → HandlerResult) (writeOk : Bool)
    (ds : DaemonState) (e : Event) :
    Except Unit (DaemonState × List HandlerConfig) :=
  if has_event ds.store e.id then .ok (ds, [])
  else
    match writeEventFile repoPath writeOk ds e with
    | .error u => .error u
    | .ok ds1 =>
      let hs := matchEvent handlers e
      let stepped := hs.foldl
        (fun acc h => (log_event acc.1 e (disp h e), acc.2 ++ [h]))
        (ds1.store, ([] : List HandlerConfig))
      .ok ({ ds1 with store := set_cursor stepped.1 e.repo e.id }, stepped.2)

/-- The catch-up loop of `Daemon._catch_up` for one repo: every fetched
event goes through `_handle_event` in order.  `events` is the
concatenation of the pages returned by `fetch_events_since` (the `after_id`
pagination bookkeeping only selects which events are fetched); `writeOk`
gives the event-file append outcome per event.  An exception from the
handling path aborts the run. -/
def catchUpRepo (repoPath : String → Option String)
    (handlers : List HandlerConfig)
    (disp : HandlerConfig → Event → HandlerResult) (writeOk : Event → Bool)
    (ds : DaemonState) (events : List Event) : Except Unit DaemonState :=
  match events with
  | [] => .ok ds
  | e :: rest =>
    match handleEvent repoPath handlers disp (writeOk e) ds e with
    | .error u => .error u
    | .ok (ds1, _) => catchUpRepo repoPath handlers disp writeOk ds1 rest

/-! ### Reconnect backoff (`Daemon.run`)

`backoff` starts at `_INITIAL_BACKOFF` (1.0).  After `subscribe` returns,
the daemon resets `backoff` to the initial value only if the
connection-lost event is not already set (`daemon.py` line 76).  When a
cycle ends in connection loss it sleeps for the current `backoff` and then
doubles it, clamped to `_MAX_BACKOFF` (60.0).  All reachable values are
small integers, exact in floating point, so `ℚ` models them faithfully. -/

/-- `_INITIAL_BACKOFF`. -/
def INITIAL_BACKOFF : ℚ := 1

/-- `_MAX_BACKOFF`. -/
def MAX_BACKOFF : ℚ := 60

/-- Python `min(a, b)` on two rationals (kept executable; equal to `min`,
see `pyMin_eq_min`). -/
def pyMin (a b : ℚ) : ℚ := if a ≤ b then a else b

/-- The backoff in effect when a cycle reaches its sleep, given the value
carried into the cycle and whether the connection-lost event was already
set at the post-subscribe check (a subscribe that errors immediately sets
it, so no reset happens). -/
def cycleSleep (b : ℚ) (lostAtCheck : Bool) : ℚ :=
  if lostAtCheck then b else INITIAL_BACKOFF

/-- The backoff carried into the next cycle after a connection loss:
`min(backoff * 2, _MAX_BACKOFF)`. -/
def nextBackoff (b : ℚ) (lostAtCheck : Bool) : ℚ :=
  pyMin (cycleSleep b lostAtCheck * 2) MAX_BACKOFF

/-- The sleep before reconnect attempt `k` (0-based) in a run of
consecutive cycles whose subscriptions all fail immediately, starting from
a fresh backoff. -/
def backoffIter : Nat → ℚ
  | 0 => INITIAL_BACKOFF
  | k + 1 => nextBackoff (backoffIter k) true

/-! ### Concrete objects shared by several witnesses and counterexamples -/

/-- A concrete event: a completed `check_run` on `owner/repo` with a
failure conclusion, no actor. -/
def eEx : Event :=
  { id := 1, repo := "owner/repo", event_type := "check_run",
    action := "completed", ref := some "main",
    payload := [("conclusion", .str "failure"),
                ("nested", .obj [("x", .num 3)])] }

/-- The same remote id as `eEx` with different descriptive fields. -/
def eEx2 : Event :=
  { id := 1, repo := "owner/repo", event_type := "check_run",
    action := "completed", summary := some "redelivery" }

/-- A concrete enabled handler matching `eEx` (its filter holds). -/
def hEx : HandlerConfig :=
  { name := "hEx", event_type := "check_run", action := "completed",
    command := "echo", filters := ["payload.conclusion == \x27failure\x27"] }

/-- A dispatcher oracle that reports success for every handler. -/
def dispEx : HandlerConfig → Event → HandlerResult :=
  fun h _ => { handler_name := h.name, status := .success }

/-- A concrete successful handler result. -/
def rEx : HandlerResult := { handler_name := "hEx", status := .success }

/-- The event-log row `log_event` writes for `eEx` with result `rEx`. -/
def rowEx : LogRow :=
  { remote_id := 1, repo := "owner/repo", event_type := "check_run",
    action := "completed", summary := none, handler_name := "hEx",
    handler_result := "success" }

/-! ### Cursor lemmas (claim C1) -/

/-- Looking up the repo just upserted yields the new id. -/
theorem cursorLookup_upsert_self (l : List (String × Int)) (repo : String)
    (i : Int) : cursorLookup (cursorUpsert l repo i) repo = some i := by
  induction l with
  | nil => simp [cursorUpsert, cursorLookup]
  | cons hd tl ih =>
    obtain ⟨r, j⟩ := hd
    by_cases h : r = repo
    · simp [cursorUpsert, cursorLookup, h]
    · simp [cursorUpsert, cursorLookup, h, ih]

/-- Upserting one repo leaves every other repo's cursor unchanged. -/
theorem cursorLookup_upsert_other (l : List (String × Int))
    (repo r' : String) (i : Int) (h : r' ≠ repo) :
    cursorLookup (cursorUpsert l repo i) r' = cursorLookup l r' := by
  induction l with
  | nil =>
    simp only [cursorUpsert, cursorLookup]
    rw [if_neg (Ne.symm h)]
  | cons hd tl ih =>
    obtain ⟨r, j⟩ := hd
    by_cases hr : r = repo
    · subst hr
      simp only [cursorUpsert, if_pos rfl, cursorLookup]
      rw [if_neg (Ne.symm h), if_neg (Ne.symm h)]
    · simp only [cursorUpsert, if_neg hr, cursorLookup]
      by_cases hr2 : r = r'
      · rw [if_pos hr2, if_pos hr2]
      · rw [if_neg hr2, if_neg hr2, ih]

/-- C1 (counterexample): two successful `set_cursor` calls for the same
repo, the second carrying a smaller id, leave the stored `last_event_id`
strictly below the value stored after the first call — `set_cursor` is an
unconditional upsert with no monotonicity guard, so the claimed invariant
fails. -/
theorem set_cursor_monotonic_counterexample :
    get_cursor (set_cursor ({} : Store) "owner/repo" 5) "owner/repo" = some 5 ∧
    get_cursor (set_cursor (set_cursor ({} : Store) "owner/repo" 5)
        "owner/repo" 3) "owner/repo" = some 3 ∧
    (3 : Int) < 5 := by
  refine ⟨rfl, rfl, by decide⟩

/-- C1 (amended): the stored `last_event_id` for a repo always equals the
id passed to the most recent successful `set_cursor` call for that repo
(last write wins), and a `set_cursor` call leaves every other repo's
cursor unchanged; the stored value is non-decreasing only when the ids
passed are non-decreasing — the daemon passes each delivered event's own
id, so an out-of-order delivery can move the cursor backwards. -/
theorem set_cursor_last_write_wins (st : Store) (repo r' : String) (i : Int) :
    get_cursor (set_cursor st repo i) repo = some i ∧
    (r' ≠ repo → get_cursor (set_cursor st repo i) r' = get_cursor st r') := by
  constructor
  · exact cursorLookup_upsert_self st.cursor repo i
  · intro h
    exact cursorLookup_upsert_other st.cursor repo r' i h

/-- Witness for `set_cursor_last_write_wins` at a concrete store and
distinct repos. -/
theorem set_cursor_last_write_wins_witness :
    "a/b" ≠ "c/d" ∧
    (get_cursor (set_cursor ({} : Store) "c/d" 7) "c/d" = some 7 ∧
     ("a/b" ≠ "c/d" →
       get_cursor (set_cursor ({} : Store) "c/d" 7) "a/b" =
         get_cursor ({} : Store) "a/b")) :=
  ⟨by decide, set_cursor_last_write_wins ({} : Store) "c/d" "a/b" 7⟩

/-! ### Backoff lemmas (claim C2) -/

/-- `pyMin` is the lattice `min` on `ℚ`. -/
theorem pyMin_eq_min (a b : ℚ) : pyMin a b = min a b := by
  by_cases h : a ≤ b
  · simp [pyMin, h, min_eq_left h]
  · simp [pyMin, h, min_eq_right (le_of_not_le h)]

/-- Closed form of the consecutive-failure backoff sequence: the sleep
before the `k`-th reconnect is `2^k` seconds clamped to the maximum. -/
theorem backoffIter_closed (k : Nat) :
    backoffIter k = min ((2 : ℚ) ^ k) MAX_BACKOFF := by
  induction k with
  | zero =>
    rw [pow_zero, min_eq_left (by rw [MAX_BACKOFF]; norm_num)]
    rfl
  | succ k ih =>
    have hstep : backoffIter (k + 1) = pyMin (backoffIter k * 2) MAX_BACKOFF := rfl
    rw [hstep, pyMin_eq_min, ih]
    rcases le_total ((2 : ℚ) ^ k) MAX_BACKOFF with h | h
    · rw [min_eq_left h, pow_succ]
    · have h2 : MAX_BACKOFF ≤ (2 : ℚ) ^ (k + 1) := by
        have hp : (0 : ℚ) ≤ (2 : ℚ) ^ k := by positivity
        rw [pow_succ]
        nlinarith [h]
      rw [min_eq_right h, min_eq_right h2,
        min_eq_right (by rw [MAX_BACKOFF]; norm_num : MAX_BACKOFF ≤ MAX_BACKOFF * 2)]

/-- C2: the reconnect backoff starts at 1.0 s; over consecutive
subscription failures the sleeps follow 1, 2, 4, 8, 16, 32, 60, 60, …
(`2^k` clamped at 60.0); a cycle whose post-subscribe check found the
connection-lost event already set keeps the current backoff (no reset) and
then doubles it clamped to the maximum, while a cycle whose subscribe
completed cleanly resets the backoff to the initial 1.0. -/
theorem backoff_schedule :
    (backoffIter 0 = 1 ∧ backoffIter 1 = 2 ∧ backoffIter 2 = 4 ∧
     backoffIter 3 = 8 ∧ backoffIter 4 = 16 ∧ backoffIter 5 = 32 ∧
     backoffIter 6 = 60 ∧ backoffIter 7 = 60) ∧
    (∀ k : Nat, backoffIter k = min ((2 : ℚ) ^ k) MAX_BACKOFF) ∧
    (∀ b : ℚ, cycleSleep b true = b) ∧
    (∀ b : ℚ, nextBackoff b true = min (b * 2) MAX_BACKOFF) ∧
    (∀ b : ℚ, cycleSleep b false = INITIAL_BACKOFF) ∧
    INITIAL_BACKOFF = 1 ∧ MAX_BACKOFF = 60 := by
  have hval : ∀ k : Nat, backoffIter k = min ((2 : ℚ) ^ k) 60 := by
    intro k
    rw [backoffIter_closed k, MAX_BACKOFF]
  refine ⟨⟨?_, ?_, ?_, ?_, ?_, ?_, ?_, ?_⟩, backoffIter_closed, fun b => rfl,
    fun b => ?_, fun b => rfl, rfl, rfl⟩
  · rw [hval]; norm_num
  · rw [hval]; norm_num
  · rw [hval]; norm_num
  · rw [hval]; norm_num
  · rw [hval]; norm_num
  · rw [hval]; norm_num
  · rw [hval]; norm_num
  · rw [hval]; norm_num
  · rw [nextBackoff, pyMin_eq_min]
    rfl

/-! ### Dispatcher status mapping (claim C6) -/

/-- C6 (amended): when template substitution raises during dispatch, the
returned result has status `error`, output `"Template resolution failed:
<msg>"`, no exit code, and **no** recorded duration (`duration_seconds`
stays `None`: the source builds this result before it starts the clock). -/
theorem dispatch_template_error (h : HandlerConfig) (msg : String)
    (proc : ProcOutcome) (d : ℚ) :
    dispatch h (Except.error msg) proc d =
      Except.ok { handler_name := h.name, status := .error,
                  exit_code := none,
                  output := some ("Template resolution failed: " ++ msg),
                  duration_seconds := none } := rfl

/-- The result `dispatch` returns for `hEx` when template resolution
raises `"boom"`. -/
def resTemplateErr : HandlerResult :=
  { handler_name := "hEx", status := .error,
    output := some "Template resolution failed: boom" }

/-- C6 (counterexample): at a concrete failing template resolution the
dispatch result carries `duration_seconds = none` — the claim's "recorded
duration" is false (status, output and missing exit code are as
claimed). -/
theorem dispatch_template_error_counterexample :
    dispatch hEx (Except.error "boom") (ProcOutcome.completed 0 "" "") 1 =
      Except.ok resTemplateErr ∧
    resTemplateErr.duration_seconds = none ∧
    resTemplateErr.status = .error ∧
    resTemplateErr.exit_code = none ∧
    resTemplateErr.output = some "Template resolution failed: boom" :=
  ⟨rfl, rfl, rfl, rfl, rfl⟩

/-! ### Event-log idempotence (claim C8) -/

/-- After `log_event` for an event, `has_event` holds for its id. -/
theorem has_event_log_event_self (s : Store) (e : Event) (r : HandlerResult) :
    has_event (log_event s e r) e.id = true := by
  by_cases h : has_event s e.id = true
  · rw [log_event, if_pos h]
    exact h
  · rw [log_event, if_neg h, has_event]
    simp [List.any_append]

/-- C8: `log_event` is idempotent in the dedup key — a second call with an
event carrying the same id leaves the event log in exactly the state the
first call produced.  The uniqueness violation is absorbed inside
`log_event` (a total function here, mirroring the swallowed
`sqlite3.IntegrityError`), never surfaced as a store failure. -/
theorem log_event_idempotent (s : Store) (e1 : Event) (r1 : HandlerResult)
    (e2 : Event) (r2 : HandlerResult) (h : e2.id = e1.id) :
    log_event (log_event s e1 r1) e2 r2 = log_event s e1 r1 := by
  set st := log_event s e1 r1 with hst
  have hh : has_event st e2.id = true := by
    rw [hst, h]
    exact has_event_log_event_self s e1 r1
  rw [log_event, if_pos hh]

/-- Witness for `log_event_idempotent`: logging `eEx` twice (second time
as the redelivered `eEx2` with the same id) equals logging it once. -/
theorem log_event_idempotent_witness :
    eEx2.id = eEx.id ∧
    log_event (log_event ({} : Store) eEx rEx) eEx2 rEx =
      log_event ({} : Store) eEx rEx :=
  ⟨rfl, log_event_idempotent ({} : Store) eEx rEx eEx2 rEx rfl⟩

/-! ### Handler matching (claim C7) -/

/-- C7: `match` returns exactly the enabled handlers whose `event_type`
and `action` equal the event's fields and whose whole filter list
evaluates true, in registration order (the loop is the list filter of
that conjunction); and a filter list containing an expression the filter
grammar cannot parse evaluates false as a whole — `_evaluate_filters` is
total, so nothing is raised. -/
theorem match_is_filter :
    (∀ (handlers : List HandlerConfig) (e : Event),
       matchEvent handlers e = handlers.filter
         (fun h => h.enabled && (h.event_type == e.event_type) &&
                   (h.action == e.action) && evaluateFilters h.filters e)) ∧
    (∀ (fs : List String) (e : Event) (f : String),
       f ∈ fs → parseFilter f = none → evaluateFilters fs e = false) := by
  constructor
  · intro handlers e
    induction handlers with
    | nil => rfl
    | cons h hs ih =>
      simp only [matchEvent, List.filter_cons]
      by_cases h1 : h.enabled <;>
        by_cases h2 : h.event_type = e.event_type <;>
          by_cases h3 : h.action = e.action <;>
            by_cases h4 : evaluateFilters h.filters e = true <;>
              simp [h1, h2, h3, h4, ih]
  · intro fs e f hmem hparse
    induction fs with
    | nil => cases hmem
    | cons g fs ih =>
      rcases List.mem_cons.mp hmem with hg | hg
      · subst hg
        simp only [evaluateFilters, hparse]
      · rcases hp : parseFilter g with _ | ⟨path, op, expected⟩
        · simp only [evaluateFilters, hp]
        · have ihv := ih hg
          simp only [evaluateFilters, hp]
          cases op <;> split <;> simp [ihv]

/-- Witness for `match_is_filter`: a filter list containing the
unparseable expression `"!!"` evaluates false on a concrete event. -/
theorem match_is_filter_witness :
    ("!!" ∈ ["!!"] ∧ parseFilter "!!" = none) ∧
    evaluateFilters ["!!"] eEx = false :=
  ⟨⟨by simp, rfl⟩, match_is_filter.2 ["!!"] eEx "!!" (by simp) rfl⟩

/-! ### Dotted-path resolution (claim C5) -/

/-- C5 (counterexample): on a concrete event, the dotted path `"repo.x"` —
a top-level attribute head followed by a further segment — resolves to the
attribute's own value `"owner/repo"`, not to null, and the corresponding
template placeholder substitutes that value, not the empty string:
`_resolve_field` and the template replacer both ignore the extra segments
after a non-`payload` head. -/
theorem resolve_attr_tail_counterexample :
    resolve_field "repo.x" eEx = some (.str "owner/repo") ∧
    resolve_field "repo.x" eEx ≠ none ∧
    resolve_template "\x7b\x7brepo.x\x7d\x7d" eEx = "owner/repo" ∧
    ("owner/repo" : String) ≠ "" := by
  have h1 : resolve_field "repo.x" eEx = some (.str "owner/repo") := rfl
  refine ⟨h1, ?_, rfl, by decide⟩
  rw [h1]
  exact Option.some_ne_none _

/-- C5 (amended): dotted-path resolution distinguishes the head segment.
For a path headed by a top-level attribute (anything but `payload`) the
remaining segments are ignored: filters resolve to the attribute value
itself and templates substitute its stringification (empty only when the
attribute is null or unknown).  Only for `payload`-rooted paths does the
walk apply: a missing or non-mapping intermediate yields null, and a null
resolution substitutes the empty string in templates. -/
theorem dotted_path_resolution (e : Event) (head : String)
    (rest : List String) (v : Option JsonVal) (parts : List String) :
    (head ≠ "payload" → resolveFieldParts (head :: rest) e = eventAttr e head) ∧
    (head ≠ "payload" → replacer (head :: rest) e =
       (match eventAttr e head with | none => "" | some w => pyStr w)) ∧
    (head = "payload" → walkPayload (some (.obj e.payload)) rest = none →
       replacer (head :: rest) e = "") ∧
    (parts ≠ [] → (∀ fs, v ≠ some (.obj fs)) → walkPayload v parts = none) := by
  refine ⟨fun h => ?_, fun h => ?_, fun h hw => ?_, fun hp hv => ?_⟩
  · simp only [resolveFieldParts]
    rw [if_neg h]
  · simp only [replacer]
    rw [if_neg h]
  · subst h
    simp only [replacer]
    rw [if_pos trivial, hw]
  · cases parts with
    | nil => exact absurd rfl hp
    | cons p ps =>
      cases v with
      | none => rfl
      | some j =>
        cases j with
        | null => rfl
        | bool b => rfl
        | num n => rfl
        | str s => rfl
        | arr xs => rfl
        | obj fs => exact absurd rfl (hv fs)

/-- Witness for `dotted_path_resolution` at concrete inputs: the path
`ref.x` resolves to the `ref` attribute, and a walk starting from a
non-mapping value yields null. -/
theorem dotted_path_resolution_witness :
    resolveFieldParts ["ref", "x"] eEx = eventAttr eEx "ref" ∧
    replacer ["payload", "missing"] eEx = "" ∧
    walkPayload (some (.str "failure")) ["deep"] = none := by
  refine ⟨(dotted_path_resolution eEx "ref" ["x"] none []).1 (by decide),
    (dotted_path_resolution eEx "payload" ["missing"] none []).2.2.1 rfl rfl,
    (dotted_path_resolution eEx "ref" ["x"]
      (some (.str "failure")) ["deep"]).2.2.2 (by simp) ?_⟩
  intro fs hcontra
  exact JsonVal.noConfusion (Option.some.inj hcontra)

/-! ### Event-file write failures (claim C4) -/

/-- A repo-path configuration mapping `owner/repo` to a local checkout. -/
def rpEx : String → Option String :=
  fun r => if r = "owner/repo" then some "/tmp/repo" else none

/-- C4 (counterexample): with a local path configured and a handler that
matches, a failing event-file append makes `_handle_event` raise — the
result is the propagated exception, so the matching, dispatch, event
logging and cursor advancement the claim promises never happen
(`_write_event_file` has no exception handling). -/
theorem write_failure_best_effort_counterexample :
    handleEvent rpEx [hEx] dispEx false { store := {} } eEx =
      Except.error () ∧
    matchEvent [hEx] eEx = [hEx] :=
  ⟨rfl, rfl⟩

/-- C4 (amended): the event-file append is attempted before handler
matching and is not best-effort.  When no local path is configured for the
event's repo the write is skipped and cannot fail; but when a path is
configured and the append raises, the exception propagates out of
`_handle_event`, so handler matching, dispatch, event logging and cursor
advancement are all skipped for that event. -/
theorem write_failure_aborts_handling (rp : String → Option String)
    (handlers : List HandlerConfig)
    (disp : HandlerConfig → Event → HandlerResult)
    (ds : DaemonState) (e : Event) :
    (∀ p, rp e.repo = some p → has_event ds.store e.id = false →
       handleEvent rp handlers disp false ds e = Except.error ()) ∧
    (rp e.repo = none → ∀ wOk,
       writeEventFile rp wOk ds e = Except.ok ds) := by
  constructor
  · intro p hp hfresh
    simp only [handleEvent, hfresh, writeEventFile, hp]
    rfl
  · intro hnone wOk
    simp only [writeEventFile, hnone]

/-- Witness for `write_failure_aborts_handling` at the concrete
configuration, event and store of the counterexample, plus a repo with no
configured path. -/
theorem write_failure_aborts_handling_witness :
    (rpEx "owner/repo" = some "/tmp/repo" ∧
     has_event ({} : Store) eEx.id = false ∧
     handleEvent rpEx [hEx] dispEx false { store := {} } eEx =
       Except.error ()) ∧
    (rpEx "other/repo" = none ∧
     writeEventFile rpEx true { store := {} }
       { eEx with repo := "other/repo" } =
         Except.ok { store := {} }) :=
  ⟨⟨rfl, rfl,
    (write_failure_aborts_handling rpEx [hEx] dispEx { store := {} } eEx).1
      "/tmp/repo" rfl rfl⟩,
   ⟨rfl,
    (write_failure_aborts_handling rpEx [hEx] dispEx { store := {} }
      { eEx with repo := "other/repo" }).2 rfl true⟩⟩

/-! ### Structural lemmas about the event-handling path (claims C9, C3) -/

/-- `log_event` never touches the cursor table. -/
theorem log_event_cursor (s : Store) (e : Event) (r : HandlerResult) :
    (log_event s e r).cursor = s.cursor := by
  by_cases h : has_event s e.id = true <;> simp [log_event, h]

/-- `log_event` inserts only its own event's id: membership of any other
id is unchanged. -/
theorem has_event_log_event_other (s : Store) (e : Event)
    (r : HandlerResult) (i : Int) (h : i ≠ e.id) :
    has_event (log_event s e r) i = has_event s i := by
  by_cases hd : has_event s e.id = true
  · rw [log_event, if_pos hd]
  · rw [log_event, if_neg hd, has_event, has_event]
    simp [List.any_append, Ne.symm h]

/-- `log_event` preserves membership of any already-present id. -/
theorem has_event_log_event_mono (s : Store) (e : Event)
    (r : HandlerResult) (i : Int) (h : has_event s i = true) :
    has_event (log_event s e r) i = true := by
  by_cases hd : has_event s e.id = true
  · rw [log_event, if_pos hd]
    exact h
  · rw [log_event, if_neg hd, has_event]
    rw [has_event] at h
    simp [List.any_append, h]

/-- `set_cursor` never touches the event log. -/
theorem has_event_set_cursor (st : Store) (r : String) (j i : Int) :
    has_event (set_cursor st r j) i = has_event st i := rfl

/-- The dispatch loop of `_handle_event` (its fold over the matched
handlers) records the handlers it dispatched, in order. -/
theorem dispatchLoop_snd (disp : HandlerConfig → Event → HandlerResult)
    (e : Event) (hs : List HandlerConfig) (st : Store)
    (acc : List HandlerConfig) :
    (List.foldl (fun acc h => (log_event acc.1 e (disp h e), acc.2 ++ [h]))
      (st, acc) hs).2 = acc ++ hs := by
  induction hs generalizing st acc with
  | nil => simp
  | cons h hs ih => simp [List.foldl, ih]

/-- The dispatch loop never touches the cursor table. -/
theorem dispatchLoop_cursor (disp : HandlerConfig → Event → HandlerResult)
    (e : Event) (hs : List HandlerConfig) (st : Store)
    (acc : List HandlerConfig) :
    (List.foldl (fun acc h => (log_event acc.1 e (disp h e), acc.2 ++ [h]))
      (st, acc) hs).1.cursor = st.cursor := by
  induction hs generalizing st acc with
  | nil => rfl
  | cons h hs ih =>
    simp [List.foldl, ih, log_event_cursor]

/-- The dispatch loop only ever logs its own event's id. -/
theorem dispatchLoop_has_other (disp : HandlerConfig → Event → HandlerResult)
    (e : Event) (hs : List HandlerConfig) (st : Store)
    (acc : List HandlerConfig) (i : Int) (h : i ≠ e.id) :
    has_event (List.foldl
      (fun acc h => (log_event acc.1 e (disp h e), acc.2 ++ [h]))
      (st, acc) hs).1 i = has_event st i := by
  induction hs generalizing st acc with
  | nil => rfl
  | cons hh hs ih =>
    simp only [List.foldl]
    rw [ih, has_event_log_event_other _ _ _ _ h]

/-- The dispatch loop preserves membership of an already-present id. -/
theorem dispatchLoop_has_mono (disp : HandlerConfig → Event → HandlerResult)
    (e : Event) (hs : List HandlerConfig) (st : Store)
    (acc : List HandlerConfig) (i : Int) (h : has_event st i = true) :
    has_event (List.foldl
      (fun acc h => (log_event acc.1 e (disp h e), acc.2 ++ [h]))
      (st, acc) hs).1 i = true := by
  induction hs generalizing st acc with
  | nil => exact h
  | cons hh hs ih =>
    simp only [List.foldl]
    exact ih _ _ (has_event_log_event_mono _ _ _ _ h)

/-- Anatomy of a successful `_handle_event` run on a fresh (non-duplicate)
event: the dispatched handlers are exactly the matches, the resulting
store is the dispatch loop's store with the cursor upserted to the event's
id, and the event file gained one line exactly when a local path is
configured. -/
theorem handleEvent_ok_spec (rp : String → Option String)
    (handlers : List HandlerConfig)
    (disp : HandlerConfig → Event → HandlerResult) (wOk : Bool)
    (ds : DaemonState) (e : Event) (ds' : DaemonState)
    (calls : List HandlerConfig)
    (hfresh : has_event ds.store e.id = false)
    (hok : handleEvent rp handlers disp wOk ds e = Except.ok (ds', calls)) :
    calls = matchEvent handlers e ∧
    ds'.store = set_cursor (List.foldl
      (fun acc h => (log_event acc.1 e (disp h e), acc.2 ++ [h]))
      (ds.store, []) (matchEvent handlers e)).1 e.repo e.id ∧
    ds'.files = ds.files ++ (match rp e.repo with
      | none => [] | some p => [(p, e)]) := by
  rw [handleEvent] at hok
  rw [hfresh] at hok
  simp only [Bool.false_eq_true, if_false] at hok
  rcases hrp : rp e.repo with _ | p
  · rw [writeEventFile, hrp] at hok
    simp only [Except.ok.injEq, Prod.mk.injEq] at hok
    obtain ⟨hds, hcalls⟩ := hok
    refine ⟨?_, ?_, ?_⟩
    · rw [← hcalls, dispatchLoop_snd]
      simp
    · rw [← hds]
    · rw [← hds]
      simp
  · rw [writeEventFile, hrp] at hok
    cases wOk with
    | false => simp at hok
    | true =>
      simp only [if_true, Except.ok.injEq, Prod.mk.injEq] at hok
      obtain ⟨hds, hcalls⟩ := hok
      refine ⟨?_, ?_, ?_⟩
      · rw [← hcalls, dispatchLoop_snd]
        simp
      · rw [← hds]
      · rw [← hds]

/-- On the duplicate path `_handle_event` returns the state unchanged with
no dispatches. -/
theorem handleEvent_dup (rp : String → Option String)
    (handlers : List HandlerConfig)
    (disp : HandlerConfig → Event → HandlerResult) (wOk : Bool)
    (ds : DaemonState) (e : Event)
    (hdup : has_event ds.store e.id = true) :
    handleEvent rp handlers disp wOk ds e = Except.ok (ds, []) := by
  rw [handleEvent, hdup]
  simp

/-- A successful `_handle_event` never adds any id other than its own
event's to the event log. -/
theorem handleEvent_has_other (rp : String → Option String)
    (handlers : List HandlerConfig)
    (disp : HandlerConfig → Event → HandlerResult) (wOk : Bool)
    (ds : DaemonState) (e : Event) (ds' : DaemonState)
    (calls : List HandlerConfig) (i : Int)
    (hok : handleEvent rp handlers disp wOk ds e = Except.ok (ds', calls))
    (hne : i ≠ e.id) :
    has_event ds'.store i = has_event ds.store i := by
  cases hfe : has_event ds.store e.id with
  | true =>
    rw [handleEvent_dup rp handlers disp wOk ds e hfe] at hok
    simp only [Except.ok.injEq, Prod.mk.injEq] at hok
    rw [← hok.1]
  | false =>
    obtain ⟨-, hstore, -⟩ :=
      handleEvent_ok_spec rp handlers disp wOk ds e ds' calls hfe hok
    rw [hstore, has_event_set_cursor, dispatchLoop_has_other _ _ _ _ _ _ hne]

/-- A successful `_handle_event` on a fresh event leaves the cursor for
the event's repo at the event's own id. -/
theorem handleEvent_sets_cursor (rp : String → Option String)
    (handlers : List HandlerConfig)
    (disp : HandlerConfig → Event → HandlerResult) (wOk : Bool)
    (ds : DaemonState) (e : Event) (ds' : DaemonState)
    (calls : List HandlerConfig)
    (hfresh : has_event ds.store e.id = false)
    (hok : handleEvent rp handlers disp wOk ds e = Except.ok (ds', calls)) :
    get_cursor ds'.store e.repo = some e.id := by
  obtain ⟨-, hstore, -⟩ :=
    handleEvent_ok_spec rp handlers disp wOk ds e ds' calls hfresh hok
  rw [hstore]
  exact cursorLookup_upsert_self _ _ _

/-! ### The dedup gate covers only matched events (claim C9) -/

/-- C9: processing a fresh event, `_handle_event` dispatches exactly the
matching handlers and calls `log_event` once per match inside the loop, so
afterwards `has_event` holds for the event's id iff at least one enabled
handler matched; an event with no matches is never written to the event
log, so a later redelivery passes the dedup check and is fully
re-processed — the event-file append and the matching run again, with no
dispatch. -/
theorem dedup_gate_only_matched (rp : String → Option String)
    (handlers : List HandlerConfig)
    (disp : HandlerConfig → Event → HandlerResult) (wOk : Bool)
    (ds : DaemonState) (e : Event) (ds' : DaemonState)
    (calls : List HandlerConfig)
    (hfresh : has_event ds.store e.id = false)
    (hok : handleEvent rp handlers disp wOk ds e = Except.ok (ds', calls)) :
    calls = matchEvent handlers e ∧
    (has_event ds'.store e.id = true ↔ matchEvent handlers e ≠ []) ∧
    (matchEvent handlers e = [] →
       has_event ds'.store e.id = false ∧
       handleEvent rp handlers disp true ds' e =
         Except.ok ({ store := set_cursor ds'.store e.repo e.id,
                      files := ds'.files ++ (match rp e.repo with
                        | none => [] | some p => [(p, e)]) }, [])) := by
  obtain ⟨hcalls, hstore, hfiles⟩ :=
    handleEvent_ok_spec rp handlers disp wOk ds e ds' calls hfresh hok
  refine ⟨hcalls, ?_, ?_⟩
  · rw [hstore, has_event_set_cursor]
    cases hm : matchEvent handlers e with
    | nil =>
      simp only [List.foldl]
      simp [hfresh]
    | cons h t =>
      simp only [List.foldl]
      rw [dispatchLoop_has_mono _ _ _ _ _ _
        (has_event_log_event_self ds.store e (disp h e))]
      simp
  · intro hm
    have hstore' : ds'.store = set_cursor ds.store e.repo e.id := by
      rw [hstore, hm]
      rfl
    have hfe' : has_event ds'.store e.id = false := by
      rw [hstore', has_event_set_cursor]
      exact hfresh
    refine ⟨hfe', ?_⟩
    rw [handleEvent, hfe']
    simp only [Bool.false_eq_true, if_false]
    rcases hrp : rp e.repo with _ | p
    · rw [writeEventFile, hrp]
      simp [hm]
    · rw [writeEventFile, hrp]
      simp [hm]

/-- The state `_handle_event` produces for the unmatched event `eEx2` from
an empty store: cursor advanced, event log still empty, one file line. -/
def dsC9 : DaemonState :=
  { store := { cursor := [("owner/repo", 1)] },
    files := [("/tmp/repo", eEx2)] }

/-- Witness for `dedup_gate_only_matched`: the event `eEx2` matches no
handler (its payload has no conclusion), so after handling it the event
log still lacks its id and a redelivery is re-processed. -/
theorem dedup_gate_only_matched_witness :
    has_event ({} : Store) eEx2.id = false ∧
    handleEvent rpEx [hEx] dispEx true { store := {} } eEx2 =
      Except.ok (dsC9, []) ∧
    ([] = matchEvent [hEx] eEx2 ∧
     (has_event dsC9.store eEx2.id = true ↔ matchEvent [hEx] eEx2 ≠ []) ∧
     (matchEvent [hEx] eEx2 = [] →
        has_event dsC9.store eEx2.id = false ∧
        handleEvent rpEx [hEx] dispEx true dsC9 eEx2 =
          Except.ok ({ store := set_cursor dsC9.store eEx2.repo eEx2.id,
                       files := dsC9.files ++ (match rpEx eEx2.repo with
                         | none => [] | some p => [(p, eEx2)]) }, []))) :=
  ⟨rfl, rfl, dedup_gate_only_matched rpEx [hEx] dispEx true
    { store := {} } eEx2 dsC9 [] rfl rfl⟩

/-! ### Catch-up cursor advancement (claim C3) -/

/-- A store whose event log already contains the row for `eEx` (from a
prior run) but whose cursor table is empty. -/
def stDup : Store := { event_log := [rowEx] }

/-- C3 (counterexample): catch-up over the single event `eEx` (id 1)
completes without exception, but because the event's id is already in the
event log the handling path returns at the dedup check **before**
`set_cursor`, so the cursor is still unset instead of 1 — the claim's
"including events already present in the event log" fails. -/
theorem catch_up_cursor_counterexample :
    catchUpRepo rpEx [hEx] dispEx (fun _ => true) { store := stDup } [eEx] =
      Except.ok { store := stDup } ∧
    ([eEx] : List Event).getLast? = some eEx ∧
    eEx.id = 1 ∧
    get_cursor stDup "owner/repo" = none :=
  ⟨rfl, rfl, rfl, rfl⟩

/-- C3 (amended): after a clean catch-up run whose last fetched event is
`elast`, the stored cursor for `elast.repo` equals `elast.id` — provided
the last event is not already in the event log when it is handled (its id
is fresh at the start and not shared with an earlier fetched event).  A
duplicate last event is skipped by the dedup check and leaves the cursor
where it was. -/
theorem catch_up_final_cursor (rp : String → Option String)
    (handlers : List HandlerConfig)
    (disp : HandlerConfig → Event → HandlerResult) (wOk : Event → Bool)
    (ds : DaemonState) (evs : List Event) (ds' : DaemonState) (elast : Event)
    (hrun : catchUpRepo rp handlers disp wOk ds evs = Except.ok ds')
    (hlast : evs.getLast? = some elast)
    (hfresh : has_event ds.store elast.id = false)
    (hdistinct : ∀ e ∈ evs.dropLast, e.id ≠ elast.id) :
    get_cursor ds'.store elast.repo = some elast.id := by
  induction evs generalizing ds with
  | nil => cases hlast
  | cons e rest ih =>
    rw [catchUpRepo] at hrun
    rcases hhe : handleEvent rp handlers disp (wOk e) ds e with u | ⟨ds1, calls⟩
    · rw [hhe] at hrun
      cases hrun
    · rw [hhe] at hrun
      cases rest with
      | nil =>
        have he : e = elast := by simpa using hlast
        subst he
        simp only [catchUpRepo, Except.ok.injEq] at hrun
        subst hrun
        exact handleEvent_sets_cursor rp handlers disp (wOk e) ds e ds1 calls
          hfresh hhe
      | cons e2 rest2 =>
        have hlast' : (e2 :: rest2).getLast? = some elast := by
          rw [← List.getLast?_cons_cons]
          exact hlast
        have hmemd : e ∈ (e :: e2 :: rest2).dropLast := by
          rw [List.dropLast_cons₂]
          exact List.mem_cons_self e _
        have hne : e.id ≠ elast.id := hdistinct e hmemd
        have hfresh1 : has_event ds1.store elast.id = false := by
          rw [handleEvent_has_other rp handlers disp (wOk e) ds e ds1 calls
            elast.id hhe (Ne.symm hne)]
          exact hfresh
        refine ih ds1 hrun hlast' hfresh1 ?_
        intro x hx
        refine hdistinct x ?_
        rw [List.dropLast_cons₂]
        exact List.mem_cons_of_mem e hx

/-- The state catch-up produces from an empty store for the single
matching event `eEx`. -/
def dsAfterEx : DaemonState :=
  { store := { cursor := [("owner/repo", 1)], event_log := [rowEx] },
    files := [("/tmp/repo", eEx)] }

/-- Witness for `catch_up_final_cursor`: a clean catch-up over the fresh
event `eEx` ends with the cursor at its id. -/
theorem catch_up_final_cursor_witness :
    catchUpRepo rpEx [hEx] dispEx (fun _ => true) { store := {} } [eEx] =
      Except.ok dsAfterEx ∧
    ([eEx] : List Event).getLast? = some eEx ∧
    has_event ({} : Store) eEx.id = false ∧
    get_cursor dsAfterEx.store eEx.repo = some eEx.id :=
  ⟨rfl, rfl, rfl,
   catch_up_final_cursor rpEx [hEx] dispEx (fun _ => true) { store := {} }
     [eEx] dsAfterEx eEx rfl rfl rfl (by simp)⟩

/-! ### Null resolutions in filters compare as the string `None` (claim C10)

The comparison in `_evaluate_filters` is `str(actual)` against the quoted
literal, and `str(None)` is `"None"`, so a null resolution matches the
literal `None` — not the empty string.  Establishing this for an arbitrary
field path needs lemmas about how the filter pattern consumes a valid path
followed by the rest of the expression. -/

/-- A word path as the filter grammar accepts it: nonempty, starting with
a word character, and consumed in full by `pathTake`. -/
def validFieldPath (p : String) : Bool :=
  headIsWord p.toList && decide (pathTake p.toList = (p.toList, []))

/-- A whitespace character is not a word character. -/
theorem space_not_word (c : Char) (h : isPySpace c = true) :
    isWordChar c = false := by
  simp only [isPySpace, Bool.or_eq_true, beq_iff_eq] at h
  rcases h with ((((h | h) | h) | h) | h) | h <;> subst h <;> decide

/-- A word character is not whitespace. -/
theorem word_not_space (c : Char) (h : isWordChar c = true) :
    isPySpace c = false := by
  cases hsp : isPySpace c
  · rfl
  · rw [space_not_word c hsp] at h
    cases h

/-- Rebuilding a string from its character list is the identity. -/
theorem stringMk_toList (p : String) : String.mk p.toList = p := rfl

/-- The cons-step equation of `pathTake`. -/
theorem pathTake_cons (c : Char) (cs : List Char) :
    pathTake (c :: cs) =
      if isWordChar c || (c == '.' && headIsWord cs) then
        (c :: (pathTake cs).1, (pathTake cs).2)
      else ([], c :: cs) := rfl

/-- `pathTake` consumed its whole input; appending a character that can
extend neither a word run nor start a dotted segment leaves the consumed
prefix unchanged and the appended part as remainder. -/
theorem pathTake_append (cs : List Char) (c : Char) (r : List Char)
    (hall : pathTake cs = (cs, []))
    (hw : isWordChar c = false) (hd : c ≠ '.') :
    pathTake (cs ++ c :: r) = (cs, c :: r) := by
  induction cs with
  | nil =>
    rw [List.nil_append, pathTake_cons, if_neg (by simp [hw, hd])]
  | cons a cs' ih =>
    rw [pathTake_cons] at hall
    by_cases hcond : (isWordChar a || (a == '.' && headIsWord cs')) = true
    · rw [if_pos hcond] at hall
      simp only [Prod.mk.injEq, List.cons.injEq, true_and] at hall
      have hall' : pathTake cs' = (cs', []) := Prod.ext hall.1 hall.2
      have hcond2 :
          (isWordChar a || (a == '.' && headIsWord (cs' ++ c :: r))) = true := by
        rcases Bool.or_eq_true _ _ |>.mp hcond with h | h
        · rw [h]
          rfl
        · obtain ⟨hdot, hhw⟩ := Bool.and_eq_true _ _ |>.mp h
          cases cs' with
          | nil => cases hhw
          | cons dd t =>
            rw [hdot]
            have hh : headIsWord ((dd :: t) ++ c :: r) = isWordChar dd := rfl
            rw [hh]
            rw [show headIsWord (dd :: t) = isWordChar dd from rfl] at hhw
            rw [hhw]
            simp
      show pathTake (a :: (cs' ++ c :: r)) = (a :: cs', c :: r)
      rw [pathTake_cons, if_pos hcond2, ih hall']
    · rw [if_neg hcond] at hall
      simp at hall

/-- Stripping is the identity on a list that starts and ends with
non-whitespace characters. -/
theorem pyStrip_eq_self (c d : Char) (t q : List Char)
    (hc : isPySpace c = false) (hd : isPySpace d = false) :
    pyStrip ((c :: t) ++ (q ++ [d])) = (c :: t) ++ (q ++ [d]) := by
  have hnc : ¬(isPySpace c = true) := by simp [hc]
  have hnd : ¬(isPySpace d = true) := by simp [hd]
  have hrev : ((c :: t) ++ (q ++ [d])).reverse =
      d :: (((c :: t) ++ q).reverse) := by
    rw [show (c :: t) ++ (q ++ [d]) = ((c :: t) ++ q) ++ [d] from
      (List.append_assoc _ _ _).symm]
    rw [List.reverse_append]
    rfl
  rw [pyStrip]
  rw [show List.dropWhile isPySpace ((c :: t) ++ (q ++ [d])) =
    (c :: t) ++ (q ++ [d]) from List.dropWhile_cons_of_neg hnc]
  rw [hrev]
  rw [List.dropWhile_cons_of_neg hnd]
  rw [← hrev, List.reverse_reverse]

/-- Matching the filter pattern against a valid field path followed by an
operator-and-value suffix: the path group captures exactly the path and
the rest of the match is decided by `parseOpValue` on the suffix.  The
suffix starts with a character that cannot extend the path (typically a
space) and ends with a non-whitespace character (typically the closing
quote). -/
theorem parseFilterChars_valid (p : String) (q : List Char) (cj d : Char)
    (hv : validFieldPath p = true)
    (hcw : isWordChar cj = false) (hcd : cj ≠ '.') (hd : isPySpace d = false) :
    parseFilterChars (p.toList ++ (cj :: (q ++ [d]))) =
      (match parseOpValue (cj :: (q ++ [d])) with
       | some (op, v) => some (p, op, v)
       | none => none) := by
  rw [validFieldPath, Bool.and_eq_true] at hv
  obtain ⟨hw, hall'⟩ := hv
  have hall : pathTake p.toList = (p.toList, []) := of_decide_eq_true hall'
  have hsplit : pyStrip (p.toList ++ (cj :: (q ++ [d]))) =
      p.toList ++ (cj :: (q ++ [d])) := by
    rcases hp : p.toList with _ | ⟨c, t⟩
    · rw [hp] at hw
      exact absurd hw (by decide)
    · have hwc : isWordChar c = true := by
        rw [hp] at hw
        exact hw
      exact pyStrip_eq_self c d t (cj :: q) (word_not_space c hwc) hd
  have htake : pathTake (p.toList ++ (cj :: (q ++ [d]))) =
      (p.toList, cj :: (q ++ [d])) :=
    pathTake_append p.toList cj (q ++ [d]) hall hcw hcd
  have hsplitd : pyStrip (p.data ++ (cj :: (q ++ [d]))) =
      p.data ++ (cj :: (q ++ [d])) := hsplit
  have htaked : pathTake (p.data ++ (cj :: (q ++ [d]))) =
      (p.data, cj :: (q ++ [d])) := htake
  have hwd : headIsWord p.data = true := hw
  have hmk : String.mk p.data = p := rfl
  rcases hov : parseOpValue (cj :: (q ++ [d])) with _ | ⟨op, v⟩ <;>
    simp [parseFilterChars, hsplitd, htaked, hwd, hov, hmk]

/-- C10: a field path that resolves to Python `None` (absent field or null
resolution) is compared through `str(None)`, the string `"None"` — so the
filter `FIELD == 'None'` evaluates true and `FIELD != 'None'` evaluates
false, while `FIELD == ''` evaluates false (the value group of the filter
pattern requires a nonempty body, so that expression does not even parse,
and an unparseable filter list evaluates false). -/
theorem null_field_filters (e : Event) (p : String)
    (hv : validFieldPath p = true)
    (hnull : resolve_field p e = none) :
    evaluateFilters [p ++ " == \x27None\x27"] e = true ∧
    evaluateFilters [p ++ " != \x27None\x27"] e = false ∧
    evaluateFilters [p ++ " == \x27\x27"] e = false := by
  have h1 : parseFilter (p ++ " == \x27None\x27") =
      some (p, FilterOp.eq, "None") := by
    rw [parseFilter]
    rw [show (p ++ " == \x27None\x27").toList =
        p.toList ++ (' ' :: (("== \x27None").toList ++ [squote])) from by
      rw [show (p ++ " == \x27None\x27").toList =
        p.data ++ (" == \x27None\x27").data from String.data_append p _]
      rfl]
    rw [parseFilterChars_valid p (("== \x27None").toList) ' ' squote hv
      (by decide) (by decide) (by decide)]
    rfl
  have h2 : parseFilter (p ++ " != \x27None\x27") =
      some (p, FilterOp.ne, "None") := by
    rw [parseFilter]
    rw [show (p ++ " != \x27None\x27").toList =
        p.toList ++ (' ' :: (("!= \x27None").toList ++ [squote])) from by
      rw [show (p ++ " != \x27None\x27").toList =
        p.data ++ (" != \x27None\x27").data from String.data_append p _]
      rfl]
    rw [parseFilterChars_valid p (("!= \x27None").toList) ' ' squote hv
      (by decide) (by decide) (by decide)]
    rfl
  have h3 : parseFilter (p ++ " == \x27\x27") = none := by
    rw [parseFilter]
    rw [show (p ++ " == \x27\x27").toList =
        p.toList ++ (' ' :: (("== \x27").toList ++ [squote])) from by
      rw [show (p ++ " == \x27\x27").toList =
        p.data ++ (" == \x27\x27").data from String.data_append p _]
      rfl]
    rw [parseFilterChars_valid p (("== \x27").toList) ' ' squote hv
      (by decide) (by decide) (by decide)]
    rfl
  refine ⟨?_, ?_, ?_⟩
  · simp [evaluateFilters, h1, hnull, pyStrOpt]
  · simp [evaluateFilters, h2, hnull, pyStrOpt]
  · simp [evaluateFilters, h3]

/-- Witness for `null_field_filters`: `eEx` has no actor, so the `actor`
path resolves to `None` and the three filters behave as proved. -/
theorem null_field_filters_witness :
    validFieldPath "actor" = true ∧
    resolve_field "actor" eEx = none ∧
    (evaluateFilters ["actor" ++ " == \x27None\x27"] eEx = true ∧
     evaluateFilters ["actor" ++ " != \x27None\x27"] eEx = false ∧
     evaluateFilters ["actor" ++ " == \x27\x27"] eEx = false) :=
  ⟨by decide, rfl, null_field_filters eEx "actor" (by decide) rfl⟩

end Metarelay
